import Mathlib

/-!
Verification of `assign_uuid.py`: a script that parses an XML file,
walks every element of the tree in pre-order, assigns a fresh version-4
UUID attribute `"uuid"` to each element lacking one, and writes the tree
back to the same file.

The XML element tree is embedded as a nested inductive (`Elem`), element
attribute dictionaries as association lists with Python-dict update
semantics, and the random source `uuid.uuid4()` as a stream of 128-bit
numbers `rs : Nat → Nat` consumed in traversal order, with the version
and variant bits forced exactly as CPython's `uuid` module does.
-/

/-- An XML element: tag, attribute dictionary (keys unique, insertion
ordered, as a Python dict), text, tail, and the ordered list of children.
Mirrors `xml.etree.ElementTree.Element`. -/
inductive Elem where
  | mk (tag : String) (attrib : List (String × String))
       (text : Option String) (tail : Option String)
       (children : List Elem)

def Elem.tag : Elem → String
  | .mk t _ _ _ _ => t

def Elem.attrib : Elem → List (String × String)
  | .mk _ a _ _ _ => a

def Elem.text : Elem → Option String
  | .mk _ _ tx _ _ => tx

def Elem.tail : Elem → Option String
  | .mk _ _ _ tl _ => tl

def Elem.children : Elem → List Elem
  | .mk _ _ _ _ cs => cs

/-- Lookup of a key in an attribute dictionary (first match; keys are
unique in a Python dict so at most one match exists). -/
def attribGet : List (String × String) → String → Option String
  | [], _ => none
  | (k, v) :: rest, key => if k = key then some v else attribGet rest key

/-- Python's `key in node.attrib` membership test. -/
def attribMem (a : List (String × String)) (key : String) : Bool :=
  (attribGet a key).isSome

/-- Python dict assignment `d[key] = val` (used by `node.set`): an
existing key keeps its position and gets the new value, a new key is
appended at the end. -/
def attribSet : List (String × String) → String → String → List (String × String)
  | [], key, val => [(key, val)]
  | (k, v) :: rest, key, val =>
    if k = key then (k, val) :: rest else (k, v) :: attribSet rest key val

/-- Lowercase hex digit for a nibble, as Python's `%x` formatting. -/
def hexDigit (n : Nat) : Char :=
  if n < 10 then Char.ofNat (48 + n) else Char.ofNat (87 + n)

/-- The `i`-th hex digit (from the least significant end) of `x`. -/
def nibble (x i : Nat) : Nat := x / 16 ^ i % 16

/-- Replace the `i`-th hex digit of `x` by `v`. -/
def setNibble (x i v : Nat) : Nat := x - nibble x i * 16 ^ i + v * 16 ^ i

/-- Python's `'%032x' % x` formatting: the 32 lowercase hex digits of a
128-bit number, most significant first. -/
def hex32 (x : Nat) : List Char :=
  (List.range 32).map (fun j => hexDigit (nibble x (31 - j)))

/-- The hyphenated 8-4-4-4-12 rendering of the 32 hex digits produced by
`str(uuid.UUID(int=x))`, as in CPython's `uuid.UUID.__str__`. -/
def uuidStr (x : Nat) : String :=
  let h := hex32 x
  String.mk (h.take 8 ++ ['-'] ++ (h.drop 8).take 4 ++ ['-'] ++
             (h.drop 12).take 4 ++ ['-'] ++ (h.drop 16).take 4 ++ ['-'] ++
             h.drop 20)

/-- CPython's `uuid.uuid4()` on a draw `r` of 16 random bytes: it clears the
two variant bits (bits 62-63) and sets the variant to `10`, then forces
the version field (bits 76-79, i.e. hex digit 19) to `4`. In hex-digit
terms: digit 15 becomes its low two bits plus `8`, digit 19 becomes `4`. -/
def uuid4 (r : Nat) : Nat :=
  let x := r % 2 ^ 128
  let x1 := setNibble x 15 (nibble x 15 % 4 + 8)
  setNibble x1 19 4

/-- Is `c` a lowercase hexadecimal digit? -/
def isHexLower (c : Char) : Bool :=
  (decide ('0' ≤ c) && decide (c ≤ '9')) || (decide ('a' ≤ c) && decide (c ≤ 'f'))

/-- The spec's version-4 UUID textual format
`xxxxxxxx-xxxx-4xxx-yxxx-xxxxxxxxxxxx`: 36 characters, hyphens at
positions 8, 13, 18, 23, lowercase hex elsewhere, `4` at position 14 and
one of `8`, `9`, `a`, `b` at position 19. -/
def isUuid4Format (s : String) : Bool :=
  let cs := s.data
  cs.length == 36 &&
  (List.range 36).all (fun i =>
    let c := cs.getD i ' '
    if i = 8 ∨ i = 13 ∨ i = 18 ∨ i = 23 then c == '-'
    else if i = 14 then c == '4'
    else if i = 19 then c == '8' || c == '9' || c == 'a' || c == 'b'
    else isHexLower c)

mutual

/-- The recursive traversal `assign_uuid(node)` of the script: if the
node's attribute dict has no key `"uuid"`, set `"uuid"` to
`str(uuid.uuid4())` drawing the next random value from the stream `rs`;
then recurse into the children in document order. The `Nat` component
threads the count of random draws made so far (the position in `rs`). -/
def assign_uuid (rs : Nat → Nat) : Elem → Nat → Elem × Nat
  | .mk tag a text tail cs, k =>
    let p := if attribMem a "uuid" then (a, k)
             else (attribSet a "uuid" (uuidStr (uuid4 (rs k))), k + 1)
    let q := assignList rs cs p.2
    (.mk tag p.1 text tail q.1, q.2)

/-- The traversal applied to a list of siblings in order, threading the
random-draw counter. -/
def assignList (rs : Nat → Nat) : List Elem → Nat → List Elem × Nat
  | [], k => ([], k)
  | c :: rest, k =>
    let p := assign_uuid rs c k
    let q := assignList rs rest p.2
    (p.1 :: q.1, q.2)

end

mutual

/-- Pre-order list of all elements of a tree (the traversal order of
`assign_uuid`). -/
def elems : Elem → List Elem
  | .mk tag a text tail cs => .mk tag a text tail cs :: elemsList cs

/-- Pre-order list of all elements of a forest. -/
def elemsList : List Elem → List Elem
  | [] => []
  | c :: rest => elems c ++ elemsList rest

end

mutual

/-- Does every element of the tree carry a `"uuid"` attribute? -/
def allHaveUuid : Elem → Bool
  | .mk _ a _ _ cs => attribMem a "uuid" && allHaveUuidList cs

/-- Does every element of the forest carry a `"uuid"` attribute? -/
def allHaveUuidList : List Elem → Bool
  | [] => true
  | c :: rest => allHaveUuid c && allHaveUuidList rest

end

/-- The exceptions the script's `try` block distinguishes:
`xml.etree.ElementTree.ParseError` versus any other `Exception`. -/
inductive PyExc where
  | parseError (msg : String)
  | otherError (msg : String)

/-- The wrapper `assign_uuids_to_nodes(file_path)`: parse the file, traverse from the
root assigning UUIDs, write the tree back, printing a success message; a
`ParseError` prints the parse diagnostic, any other exception prints the
generic diagnostic, and in both failure cases the file content is left as
it was (the write is only reached after parse and traversal succeed).
The XML library is abstracted: `parse` is the outcome of
`ET.parse(file_path)` on the current content, `write` the outcome of
`tree.write(file_path, ...)` on the mutated tree (the new serialized
content, or an exception). Returns the resulting file content and the
list of printed messages. -/
def assign_uuids_to_nodes (parse : Except PyExc Elem)
    (write : Elem → Except PyExc String) (rs : Nat → Nat)
    (file_path oldContent : String) : String × List String :=
  match parse with
  | .error (.parseError m) => (oldContent, ["Error parsing XML file: " ++ m])
  | .error (.otherError m) => (oldContent, ["An error occurred: " ++ m])
  | .ok root =>
    let root' := (assign_uuid rs root 0).1
    match write root' with
    | .error (.parseError m) => (oldContent, ["Error parsing XML file: " ++ m])
    | .error (.otherError m) => (oldContent, ["An error occurred: " ++ m])
    | .ok newContent =>
      (newContent,
       ["UUIDs have been successfully assigned to nodes in " ++ file_path ++ "."])

/-- What the `__main__` block decides to do. -/
inductive MainAction where
  | usage
  | run (path : String)
deriving DecidableEq, Repr

/-- The `__main__` block: with `len(sys.argv) != 2` print the usage line
and do nothing else; otherwise call `assign_uuids_to_nodes(sys.argv[1])`. -/
def mainDispatch : List String → MainAction
  | [_, p] => .run p
  | _ => .usage

/-- A sample document `<root id="r1">hello<child/></root>` with no
`uuid` attributes. -/
def sampleRoot : Elem :=
  .mk "root" [("id", "r1")] (some "hello") none [.mk "child" [] none none []]

/-- A sample document in which every element already carries a `uuid`
attribute (with arbitrary, non-version-4 values). -/
def sampleTagged : Elem :=
  .mk "root" [("uuid", "1234")] none none
    [.mk "child" [("uuid", "abcd")] none none []]

/-- A degenerate random stream: every draw returns zero. -/
def zeroStream : Nat → Nat := fun _ => 0

/-- The per-element relation between an input element and its image under
the traversal: tag, text, tail and child count are preserved, and the
attribute dictionary is unchanged when `"uuid"` was present, or extended
by a single appended `"uuid"` entry in valid version-4 format when it was
absent. -/
def NodeOk (x y : Elem) : Prop :=
  y.tag = x.tag ∧ y.text = x.text ∧ y.tail = x.tail ∧
  y.children.length = x.children.length ∧
  (attribMem x.attrib "uuid" = true → y.attrib = x.attrib) ∧
  (attribMem x.attrib "uuid" = false →
    ∃ w, y.attrib = x.attrib ++ [("uuid", w)] ∧ isUuid4Format w = true)


theorem attribGet_attribSet_of_none (a : List (String × String)) (key v : String)
    (h : attribGet a key = none) : attribSet a key v = a ++ [(key, v)] := by
  induction a with
  | nil => rfl
  | cons p rest ih =>
    obtain ⟨k, w⟩ := p
    by_cases hk : k = key
    · simp [attribGet, hk] at h
    · simp only [attribGet, hk, if_neg, ite_false] at h
      simp [attribSet, hk, ih h]

theorem attribGet_append_self_of_none (a : List (String × String)) (key v : String)
    (h : attribGet a key = none) : attribGet (a ++ [(key, v)]) key = some v := by
  induction a with
  | nil => simp [attribGet]
  | cons p rest ih =>
    obtain ⟨k, w⟩ := p
    by_cases hk : k = key
    · simp [attribGet, hk] at h
    · simp only [attribGet, hk, ite_false] at h
      simp [attribGet, hk, ih h]

theorem attribGet_append_single_of_ne (a : List (String × String)) (key v k' : String)
    (h : k' ≠ key) : attribGet (a ++ [(key, v)]) k' = attribGet a k' := by
  induction a with
  | nil => simp [attribGet, Ne.symm h]
  | cons p rest ih =>
    obtain ⟨k, w⟩ := p
    by_cases hk : k = k'
    · simp [attribGet, hk]
    · simp [attribGet, hk, ih]

theorem nibble_lt (x i : Nat) : nibble x i < 16 :=
  Nat.mod_lt _ (by norm_num)

theorem setNibble_closed (x i v : Nat) :
    setNibble x i v = (x / 16 ^ (i + 1) * 16 + v) * 16 ^ i + x % 16 ^ i := by
  have h2 : x / 16 ^ i = x / 16 ^ (i + 1) * 16 + x / 16 ^ i % 16 := by
    rw [pow_succ, ← Nat.div_div_eq_div_mul]
    exact (Nat.div_add_mod' _ _).symm
  have key : x = x / 16 ^ (i + 1) * 16 * 16 ^ i + x / 16 ^ i % 16 * 16 ^ i
      + x % 16 ^ i := by
    calc x = x / 16 ^ i * 16 ^ i + x % 16 ^ i := (Nat.div_add_mod' _ _).symm
    _ = (x / 16 ^ (i + 1) * 16 + x / 16 ^ i % 16) * 16 ^ i + x % 16 ^ i := by
        rw [← h2]
    _ = _ := by ring
  unfold setNibble nibble
  rw [Nat.add_mul]
  generalize x / 16 ^ (i + 1) * 16 * 16 ^ i = D at key ⊢
  generalize x / 16 ^ i % 16 * 16 ^ i = B at key ⊢
  generalize v * 16 ^ i = C
  omega

theorem nibble_setNibble_self (x i v : Nat) (hv : v < 16) :
    nibble (setNibble x i v) i = v := by
  have hP : 0 < (16 : Nat) ^ i := Nat.pos_pow_of_pos i (by norm_num)
  rw [setNibble_closed]
  unfold nibble
  rw [Nat.add_comm, Nat.add_mul_div_right _ _ hP,
      Nat.div_eq_of_lt (Nat.mod_lt _ hP), Nat.zero_add]
  omega

theorem nibble_setNibble_of_lt (x i j v : Nat) (hij : j < i) :
    nibble (setNibble x i v) j = nibble x j := by
  have hd : (16 : Nat) ^ (j + 1) ∣ 16 ^ i := pow_dvd_pow 16 (by omega)
  have hsplit : (16 : Nat) ^ i = 16 ^ (j + 1) * 16 ^ (i - (j + 1)) := by
    rw [← pow_add]
    congr 1
    omega
  have h1 : (x / 16 ^ (i + 1) * 16 + v) * 16 ^ i % 16 ^ (j + 1) = 0 := by
    rw [hsplit,
        show (x / 16 ^ (i + 1) * 16 + v) * (16 ^ (j + 1) * 16 ^ (i - (j + 1)))
          = (x / 16 ^ (i + 1) * 16 + v) * 16 ^ (i - (j + 1)) * 16 ^ (j + 1) by ring]
    exact Nat.mul_mod_left _ _
  have hmod : setNibble x i v % 16 ^ (j + 1) = x % 16 ^ (j + 1) := by
    rw [setNibble_closed, Nat.add_mod, h1, Nat.mod_mod_of_dvd x hd, Nat.zero_add,
        Nat.mod_mod_of_dvd _ dvd_rfl]
  unfold nibble
  rw [← Nat.mod_mul_right_div_self, ← Nat.mod_mul_right_div_self, ← pow_succ, hmod]

theorem uuid4_version (r : Nat) : nibble (uuid4 r) 19 = 4 := by
  simp only [uuid4]
  exact nibble_setNibble_self _ _ _ (by norm_num)

theorem uuid4_variant (r : Nat) :
    8 ≤ nibble (uuid4 r) 15 ∧ nibble (uuid4 r) 15 < 12 := by
  simp only [uuid4]
  rw [nibble_setNibble_of_lt _ _ _ _ (by norm_num),
      nibble_setNibble_self _ _ _ (by omega)]
  omega

theorem hexLower_hexDigit : ∀ n, n < 16 → isHexLower (hexDigit n) = true := by decide

theorem hexDigit_variant :
    ∀ n, n < 12 → 8 ≤ n →
      (hexDigit n == '8' || hexDigit n == '9' || hexDigit n == 'a' || hexDigit n == 'b')
        = true := by decide

theorem uuidStr_format (x : Nat) (h19 : nibble x 19 = 4)
    (h15l : 8 ≤ nibble x 15) (h15u : nibble x 15 < 12) :
    isUuid4Format (uuidStr x) = true := by
  have hr32 : List.range 32 =
      [0,1,2,3,4,5,6,7,8,9,10,11,12,13,14,15,16,17,18,19,20,21,22,23,24,25,
       26,27,28,29,30,31] := by rfl
  have hr36 : List.range 36 =
      [0,1,2,3,4,5,6,7,8,9,10,11,12,13,14,15,16,17,18,19,20,21,22,23,24,25,
       26,27,28,29,30,31,32,33,34,35] := by rfl
  have hhex : ∀ k, isHexLower (hexDigit (nibble x k)) = true := fun k =>
    hexLower_hexDigit _ (nibble_lt x k)
  have h4 : hexDigit (nibble x 19) = '4' := by rw [h19]; rfl
  have hv : (hexDigit (nibble x 15) == '8' || hexDigit (nibble x 15) == '9' ||
      hexDigit (nibble x 15) == 'a' || hexDigit (nibble x 15) == 'b') = true :=
    hexDigit_variant _ h15u h15l
  simp [isUuid4Format, uuidStr, hex32, hr32, hr36, List.take, List.drop,
    List.getD, hhex, h4, hv]

theorem uuid4_format (r : Nat) : isUuid4Format (uuidStr (uuid4 r)) = true :=
  uuidStr_format _ (uuid4_version r) (uuid4_variant r).1 (uuid4_variant r).2

theorem attribGet_attribSet_self (a : List (String × String)) (key v : String) :
    attribGet (attribSet a key v) key = some v := by
  induction a with
  | nil => simp [attribSet, attribGet]
  | cons p rest ih =>
    obtain ⟨k, w⟩ := p
    by_cases hk : k = key
    · simp [attribSet, attribGet, hk]
    · simp [attribSet, attribGet, hk, ih]

theorem assignList_length (rs : Nat → Nat) (cs : List Elem) (k : Nat) :
    (assignList rs cs k).1.length = cs.length := by
  induction cs generalizing k with
  | nil => rfl
  | cons c rest ih => simp [assignList, ih]

mutual

theorem assign_uuid_nodeOk (rs : Nat → Nat) (e : Elem) (k : Nat) :
    List.Forall₂ NodeOk (elems e) (elems (assign_uuid rs e k).1) := by
  cases e with
  | mk tag a text tail cs =>
    by_cases h : attribMem a "uuid"
    · simp only [assign_uuid, h, if_pos, if_true, elems]
      refine List.Forall₂.cons ?_ (assignList_nodeOk rs cs k)
      exact ⟨rfl, rfl, rfl, by simp [Elem.children, assignList_length],
        fun _ => rfl,
        fun hc => absurd (show attribMem a "uuid" = false from hc) (by simp [h])⟩
    · have hnone : attribGet a "uuid" = none := by
        simpa [attribMem, Option.isSome_iff_ne_none] using h
      simp only [assign_uuid, h, if_false, ite_false, elems]
      refine List.Forall₂.cons ?_ (assignList_nodeOk rs cs (k + 1))
      refine ⟨rfl, rfl, rfl, by simp [Elem.children, assignList_length],
        fun hc => absurd (show attribMem a "uuid" = true from hc) h, fun _ => ?_⟩
      exact ⟨uuidStr (uuid4 (rs k)),
        attribGet_attribSet_of_none a "uuid" _ hnone, uuid4_format (rs k)⟩

theorem assignList_nodeOk (rs : Nat → Nat) (cs : List Elem) (k : Nat) :
    List.Forall₂ NodeOk (elemsList cs) (elemsList (assignList rs cs k).1) := by
  cases cs with
  | nil => exact List.Forall₂.nil
  | cons c rest =>
    simp only [assignList, elemsList]
    exact List.rel_append (assign_uuid_nodeOk rs c k)
      (assignList_nodeOk rs rest (assign_uuid rs c k).2)

end

theorem attribMem_false_iff (a : List (String × String)) (key : String) :
    attribMem a key = false ↔ attribGet a key = none := by
  cases h : attribGet a key <;> simp [attribMem, h]

mutual

theorem allHaveUuid_assign (rs : Nat → Nat) (e : Elem) (k : Nat) :
    allHaveUuid (assign_uuid rs e k).1 = true := by
  cases e with
  | mk tag a text tail cs =>
    by_cases h : attribMem a "uuid"
    · simp only [assign_uuid, h, if_true, allHaveUuid]
      simp [h, allHaveUuidList_assign rs cs k]
    · simp only [assign_uuid, h, ite_false, allHaveUuid]
      simp [attribMem, attribGet_attribSet_self,
        allHaveUuidList_assign rs cs (k + 1)]

theorem allHaveUuidList_assign (rs : Nat → Nat) (cs : List Elem) (k : Nat) :
    allHaveUuidList (assignList rs cs k).1 = true := by
  cases cs with
  | nil => rfl
  | cons c rest =>
    simp only [assignList, allHaveUuidList]
    simp [allHaveUuid_assign rs c k,
      allHaveUuidList_assign rs rest (assign_uuid rs c k).2]

end

mutual

theorem assign_uuid_of_allHaveUuid (rs : Nat → Nat) (e : Elem) (k : Nat)
    (h : allHaveUuid e = true) : assign_uuid rs e k = (e, k) := by
  cases e with
  | mk tag a text tail cs =>
    rw [allHaveUuid, Bool.and_eq_true] at h
    simp only [assign_uuid, h.1, if_true]
    simp [assignList_of_allHaveUuid rs cs k h.2]

theorem assignList_of_allHaveUuid (rs : Nat → Nat) (cs : List Elem) (k : Nat)
    (h : allHaveUuidList cs = true) : assignList rs cs k = (cs, k) := by
  cases cs with
  | nil => rfl
  | cons c rest =>
    rw [allHaveUuidList, Bool.and_eq_true] at h
    simp only [assignList]
    rw [assign_uuid_of_allHaveUuid rs c k h.1]
    simp [assignList_of_allHaveUuid rs rest k h.2]

end

/-- C1: for every document tree, after the traversal `assign_uuid`
completes, every element reachable from the root carries a `"uuid"`
attribute (universal coverage of the pre-order traversal), whatever the
random stream and starting counter. -/
theorem c1_universal_uuid_coverage (rs : Nat → Nat) (e : Elem) (k : Nat) :
    allHaveUuid (assign_uuid rs e k).1 = true :=
  allHaveUuid_assign rs e k

theorem c1_universal_uuid_coverage_witness :
    allHaveUuid (assign_uuid zeroStream sampleRoot 0).1 = true :=
  c1_universal_uuid_coverage zeroStream sampleRoot 0

/-- C2: pairing the pre-order elements of the input with those of the
output, every element whose attribute dictionary already bound `"uuid"`
to some value `v` before processing still binds `"uuid"` to that same `v`
after `assign_uuid` completes, whatever that value is. -/
theorem c2_preexisting_uuid_unchanged (rs : Nat → Nat) (e : Elem) (k : Nat) :
    List.Forall₂
      (fun x y => ∀ v, attribGet x.attrib "uuid" = some v →
        attribGet y.attrib "uuid" = some v)
      (elems e) (elems (assign_uuid rs e k).1) :=
  (assign_uuid_nodeOk rs e k).imp (fun _ _ hOk v hv => by
    rcases hOk with ⟨_, _, _, _, hmem, _⟩
    rw [hmem (by simp [attribMem, hv])]
    exact hv)

theorem c2_preexisting_uuid_unchanged_witness :
    List.Forall₂
      (fun x y => ∀ v, attribGet x.attrib "uuid" = some v →
        attribGet y.attrib "uuid" = some v)
      (elems sampleTagged) (elems (assign_uuid zeroStream sampleTagged 0).1) :=
  c2_preexisting_uuid_unchanged zeroStream sampleTagged 0

/-- C3: `assign_uuid` applied to a tree in which every element already
has a `"uuid"` attribute returns the tree unchanged (same elements, same
order, same attribute values) and consumes no random draw; consequently
a second run on the output of any first run changes nothing. -/
theorem c3_idempotence (rs : Nat → Nat) (e : Elem) (k : Nat) :
    (allHaveUuid e = true → assign_uuid rs e k = (e, k)) ∧
    ∀ (rs2 : Nat → Nat) (k2 : Nat),
      assign_uuid rs2 (assign_uuid rs e k).1 k2 = ((assign_uuid rs e k).1, k2) :=
  ⟨assign_uuid_of_allHaveUuid rs e k,
   fun rs2 k2 => assign_uuid_of_allHaveUuid rs2 _ k2 (allHaveUuid_assign rs e k)⟩

theorem c3_idempotence_witness :
    assign_uuid zeroStream sampleTagged 0 = (sampleTagged, 0) :=
  (c3_idempotence zeroStream sampleTagged 0).1 (by decide)

/-- C4: when parsing raises `ParseError` (malformed XML), the operation
prints the parse diagnostic and the file content is exactly what it was —
the write step is never reached. -/
theorem c4_parse_error_leaves_file_unmodified (m : String)
    (write : Elem → Except PyExc String) (rs : Nat → Nat)
    (file_path old : String) :
    assign_uuids_to_nodes (.error (.parseError m)) write rs file_path old
      = (old, ["Error parsing XML file: " ++ m]) := rfl

theorem c4_parse_error_leaves_file_unmodified_witness :
    assign_uuids_to_nodes (.error (.parseError "no element found"))
      (fun _ => .ok "new") zeroStream "f.xml" "<a><b></a>"
      = ("<a><b></a>", ["Error parsing XML file: " ++ "no element found"]) :=
  c4_parse_error_leaves_file_unmodified "no element found"
    (fun _ => .ok "new") zeroStream "f.xml" "<a><b></a>"

/-- C5 as stated is false: a pre-existing `"uuid"` value is kept verbatim,
so after processing a node may carry a `"uuid"` value (here `"1234"`)
that is not a syntactically valid version-4 UUID string. -/
theorem c5_counterexample :
    attribGet (assign_uuid zeroStream sampleTagged 0).1.attrib "uuid"
        = some "1234" ∧
      isUuid4Format "1234" = false := by decide

/-- C5 amended: after processing every node has a `"uuid"` attribute;
any node that lacked one receives a syntactically valid version-4 value,
while a pre-existing value is kept verbatim (and need not be valid). -/
theorem c5_amended_invariant (rs : Nat → Nat) (e : Elem) (k : Nat) :
    List.Forall₂
      (fun x y => (attribGet y.attrib "uuid").isSome = true ∧
        (attribGet x.attrib "uuid" = none →
          ∃ w, attribGet y.attrib "uuid" = some w ∧ isUuid4Format w = true) ∧
        (∀ v, attribGet x.attrib "uuid" = some v →
          attribGet y.attrib "uuid" = some v))
      (elems e) (elems (assign_uuid rs e k).1) :=
  (assign_uuid_nodeOk rs e k).imp (fun x y hOk => by
    rcases hOk with ⟨_, _, _, _, hmem, hnew⟩
    by_cases h : attribMem x.attrib "uuid"
    · refine ⟨by rw [hmem h]; simpa [attribMem] using h, ?_, ?_⟩
      · intro hn
        rw [(attribMem_false_iff _ _).mpr hn] at h
        cases h
      · intro v hv
        rw [hmem h]
        exact hv
    · rw [Bool.not_eq_true] at h
      obtain ⟨w, hw, hfmt⟩ := hnew h
      have hn := (attribMem_false_iff _ _).mp h
      refine ⟨by rw [hw, attribGet_append_self_of_none _ _ _ hn]; rfl, ?_, ?_⟩
      · intro _
        exact ⟨w, by rw [hw, attribGet_append_self_of_none _ _ _ hn], hfmt⟩
      · intro v hv
        rw [hn] at hv
        cases hv)

theorem c5_amended_invariant_witness :
    List.Forall₂
      (fun x y => (attribGet y.attrib "uuid").isSome = true ∧
        (attribGet x.attrib "uuid" = none →
          ∃ w, attribGet y.attrib "uuid" = some w ∧ isUuid4Format w = true) ∧
        (∀ v, attribGet x.attrib "uuid" = some v →
          attribGet y.attrib "uuid" = some v))
      (elems sampleRoot) (elems (assign_uuid zeroStream sampleRoot 0).1) :=
  c5_amended_invariant zeroStream sampleRoot 0

/-- C6: every identifier the traversal newly generates is in version-4
format: the generator output `str(uuid.uuid4())` always matches the
`xxxxxxxx-xxxx-4xxx-yxxx-xxxxxxxxxxxx` shape, and accordingly every
element that lacked `"uuid"` ends up with a value of that shape. -/
theorem c6_generated_ids_v4_format :
    (∀ r : Nat, isUuid4Format (uuidStr (uuid4 r)) = true) ∧
    ∀ (rs : Nat → Nat) (e : Elem) (k : Nat),
      List.Forall₂
        (fun x y => attribGet x.attrib "uuid" = none →
          ∃ w, attribGet y.attrib "uuid" = some w ∧ isUuid4Format w = true)
        (elems e) (elems (assign_uuid rs e k).1) :=
  ⟨uuid4_format, fun rs e k =>
    (assign_uuid_nodeOk rs e k).imp (fun _ _ hOk hn => by
      rcases hOk with ⟨_, _, _, _, _, hnew⟩
      obtain ⟨w, hw, hfmt⟩ := hnew ((attribMem_false_iff _ _).mpr hn)
      exact ⟨w, by rw [hw, attribGet_append_self_of_none _ _ _ hn], hfmt⟩)⟩

theorem c6_generated_ids_v4_format_witness :
    isUuid4Format (uuidStr (uuid4 12345)) = true :=
  c6_generated_ids_v4_format.1 12345

/-- C7: the output differs from the input only by added `"uuid"`
attributes: the root element keeps its tag, and pairing the pre-order
elements of input and output, every element keeps its tag, text, tail,
child count and ordering, its attribute dictionary is either unchanged or
extended by one appended `"uuid"` entry, and every attribute under a key
other than `"uuid"` is unchanged. -/
theorem c7_frame_only_uuid_added (rs : Nat → Nat) (e : Elem) (k : Nat) :
    (assign_uuid rs e k).1.tag = e.tag ∧
    List.Forall₂
      (fun x y => y.tag = x.tag ∧ y.text = x.text ∧ y.tail = x.tail ∧
        y.children.length = x.children.length ∧
        (y.attrib = x.attrib ∨ ∃ w, y.attrib = x.attrib ++ [("uuid", w)]) ∧
        ∀ key, key ≠ "uuid" → attribGet y.attrib key = attribGet x.attrib key)
      (elems e) (elems (assign_uuid rs e k).1) := by
  constructor
  · cases e
    rfl
  · refine (assign_uuid_nodeOk rs e k).imp (fun x y hOk => ?_)
    rcases hOk with ⟨htag, htext, htail, hlen, hmem, hnew⟩
    by_cases h : attribMem x.attrib "uuid"
    · exact ⟨htag, htext, htail, hlen, Or.inl (hmem h),
        fun key _ => by rw [hmem h]⟩
    · rw [Bool.not_eq_true] at h
      obtain ⟨w, hw, _⟩ := hnew h
      exact ⟨htag, htext, htail, hlen, Or.inr ⟨w, hw⟩,
        fun key hk => by rw [hw, attribGet_append_single_of_ne _ _ _ _ hk]⟩

theorem c7_frame_only_uuid_added_witness :
    (assign_uuid zeroStream sampleRoot 0).1.tag = sampleRoot.tag ∧
    List.Forall₂
      (fun x y => y.tag = x.tag ∧ y.text = x.text ∧ y.tail = x.tail ∧
        y.children.length = x.children.length ∧
        (y.attrib = x.attrib ∨ ∃ w, y.attrib = x.attrib ++ [("uuid", w)]) ∧
        ∀ key, key ≠ "uuid" → attribGet y.attrib key = attribGet x.attrib key)
      (elems sampleRoot) (elems (assign_uuid zeroStream sampleRoot 0).1) :=
  c7_frame_only_uuid_added zeroStream sampleRoot 0

/-- C8: the `__main__` block prints the usage message (performing no file
operation) whenever the argument vector does not have exactly two entries
(program name plus one argument), and runs `assign_uuids_to_nodes` on the
single path argument when it does. -/
theorem c8_main_argument_dispatch (args : List String) :
    (args.length ≠ 2 → mainDispatch args = .usage) ∧
    ∀ p0 p, args = [p0, p] → mainDispatch args = .run p := by
  constructor
  · intro h
    match args, h with
    | [], _ => rfl
    | [_], _ => rfl
    | [_, _], h => exact absurd rfl h
    | _ :: _ :: _ :: _, _ => rfl
  · rintro p0 p rfl
    rfl

theorem c8_main_argument_dispatch_witness :
    mainDispatch [] = .usage ∧
    mainDispatch ["assign_uuid.py", "a.xml", "b.xml"] = .usage ∧
    mainDispatch ["assign_uuid.py", "a.xml"] = .run "a.xml" :=
  ⟨(c8_main_argument_dispatch []).1 (by decide),
   (c8_main_argument_dispatch ["assign_uuid.py", "a.xml", "b.xml"]).1 (by decide),
   (c8_main_argument_dispatch ["assign_uuid.py", "a.xml"]).2
     "assign_uuid.py" "a.xml" rfl⟩

/-- C9: `assign_uuids_to_nodes` always returns normally with exactly one
printed diagnostic: the parse-error message when parsing raises
`ParseError`, and the generic error message when any other exception is
raised during parsing or during the write; on success it prints the
success message. -/
theorem c9_exceptions_swallowed (parse : Except PyExc Elem)
    (write : Elem → Except PyExc String) (rs : Nat → Nat)
    (file_path old : String) :
    (assign_uuids_to_nodes parse write rs file_path old).2.length = 1 ∧
    (∀ m, parse = .error (.parseError m) →
      (assign_uuids_to_nodes parse write rs file_path old).2
        = ["Error parsing XML file: " ++ m]) ∧
    (∀ m, parse = .error (.otherError m) →
      (assign_uuids_to_nodes parse write rs file_path old).2
        = ["An error occurred: " ++ m]) ∧
    (∀ root m, parse = .ok root →
      write (assign_uuid rs root 0).1 = .error (.otherError m) →
      (assign_uuids_to_nodes parse write rs file_path old).2
        = ["An error occurred: " ++ m]) ∧
    (∀ root c, parse = .ok root →
      write (assign_uuid rs root 0).1 = .ok c →
      (assign_uuids_to_nodes parse write rs file_path old)
        = (c, ["UUIDs have been successfully assigned to nodes in "
            ++ file_path ++ "."])) := by
  refine ⟨?_, ?_, ?_, ?_, ?_⟩
  · rcases parse with e | root
    · rcases e with m | m <;> rfl
    · rcases hw : write (assign_uuid rs root 0).1 with e | c
      · rcases e with m | m <;> simp [assign_uuids_to_nodes, hw]
      · simp [assign_uuids_to_nodes, hw]
  · rintro m rfl
    rfl
  · rintro m rfl
    rfl
  · rintro root m rfl hw
    simp [assign_uuids_to_nodes, hw]
  · rintro root c rfl hw
    simp [assign_uuids_to_nodes, hw]

theorem c9_exceptions_swallowed_witness :
    (assign_uuids_to_nodes (.error (.otherError "No such file or directory"))
        (fun _ => .ok "x") zeroStream "missing.xml" "").2
      = ["An error occurred: " ++ "No such file or directory"] :=
  (c9_exceptions_swallowed (.error (.otherError "No such file or directory"))
    (fun _ => .ok "x") zeroStream "missing.xml" "").2.2.1
    "No such file or directory" rfl

/-- C10: the presence test is an exact, case-sensitive match on the key
`"uuid"`: an element whose attributes contain `"UUID"` but not `"uuid"`
still receives a newly generated `"uuid"` attribute in version-4 format,
appended after the untouched `"UUID"` entry. -/
theorem c10_case_sensitive_key_match (rs : Nat → Nat) :
    (assign_uuid rs (.mk "root" [("UUID", "X")] none none []) 0).1.attrib
      = [("UUID", "X"), ("uuid", uuidStr (uuid4 (rs 0)))] ∧
    isUuid4Format (uuidStr (uuid4 (rs 0))) = true := by
  constructor
  · rfl
  · exact uuid4_format (rs 0)

theorem c10_case_sensitive_key_match_witness :
    (assign_uuid zeroStream (.mk "root" [("UUID", "X")] none none []) 0).1.attrib
      = [("UUID", "X"), ("uuid", uuidStr (uuid4 0))] ∧
    isUuid4Format (uuidStr (uuid4 0)) = true :=
  c10_case_sensitive_key_match zeroStream
